import Mathlib

/-!
Verification of the Snake game core in src/app/page.js.

The game state lives in a handful of React refs (snakeRef, foodRef, dxRef,
dyRef, scoreRef, speedRef, gameStartedRef, scaleRef) together with the canvas
dimensions and the remote leaderboard. We embed it as one explicit record.
Coordinates are pixel units modelled as integers; the cell scale is a symbolic
integer (the source computes canvas.width / GAME_GRID_SIZE). The score and the
tick interval are natural numbers, mirroring the non-negative integers the
source manipulates. The Math.random-driven food respawn is modelled by passing
the freshly generated food cell as an explicit oracle argument to the tick
function, and separately as a fuelled sampling loop over an explicit stream of
random draws. The repeating timer is modelled by the speed field (the current
interval) and a timerOn flag; Firestore writes are modelled by a pure upsert on
a list of entries plus a counter of performed writes.
-/

namespace SnakeGame

/-- Grid size: GAME_GRID_SIZE = 20 in the source. -/
def GAME_GRID_SIZE : Nat := 20

/-- Initial tick interval in ms: INITIAL_SPEED = 150 in the source. -/
def INITIAL_SPEED : Nat := 150

/-- Score period for speedups: SPEED_INCREMENT_INTERVAL = 5 in the source. -/
def SPEED_INCREMENT_INTERVAL : Nat := 5

/-- Interval decrement in ms: SPEED_DECREMENT_AMOUNT = 10 in the source. -/
def SPEED_DECREMENT_AMOUNT : Nat := 10

/-- One grid cell, in pixel coordinates, as stored in snakeRef and foodRef. -/
structure Cell where
  x : Int
  y : Int
deriving DecidableEq, Repr, Inhabited

/-- One leaderboard document: fields username, score, timestamp, userId. -/
structure Entry where
  userId : String
  username : String
  score : Nat
  timestamp : Nat
deriving DecidableEq, Repr

/-- The currentPage state: "menu" or "game". -/
inductive Page
  | menu
  | game
deriving DecidableEq, Repr

/-- The whole mutable game state of the component. -/
structure GameState where
  snake : List Cell
  food : Cell
  dx : Int
  dy : Int
  score : Nat
  speed : Nat
  gameStarted : Bool
  timerOn : Bool
  canvasWidth : Int
  canvasHeight : Int
  scale : Int
  page : Page
  lastScore : Option Nat
  inProgress : Bool
  userId : String
  username : String
  now : Nat
  leaderboard : List Entry
  writes : Nat
deriving DecidableEq, Repr

/-- Requested direction, as passed to changeDirection. -/
inductive Dir
  | left
  | up
  | right
  | down
deriving DecidableEq, Repr

/-- Unit pixel-delta pair (dx, dy) that changeDirection would install. -/
def dirVec : Dir → Int × Int
  | Dir.left => (-1, 0)
  | Dir.up => (0, -1)
  | Dir.right => (1, 0)
  | Dir.down => (0, 1)

/-- The 180-degree reverse of a direction. -/
def opposite : Dir → Dir
  | Dir.left => Dir.right
  | Dir.up => Dir.down
  | Dir.right => Dir.left
  | Dir.down => Dir.up

/-- Component of the current direction along the axis of the requested
direction: the guard changeDirection tests against 0. -/
def axisComp (d : Dir) (s : GameState) : Int :=
  match d with
  | Dir.left => s.dx
  | Dir.right => s.dx
  | Dir.up => s.dy
  | Dir.down => s.dy

/-- checkCollision from the source: wall test against the canvas bounds, then
a self test against body cells from index 1 on. Pure Boolean predicate. -/
def checkCollision (s : GameState) (head : Cell) : Bool :=
  if head.x < 0 ∨ head.x ≥ s.canvasWidth ∨ head.y < 0 ∨ head.y ≥ s.canvasHeight then
    true
  else
    (s.snake.drop 1).any (fun seg => decide (seg.x = head.x) && decide (seg.y = head.y))

/-- The candidate new head computed at the top of update:
old head plus direction times the cell scale. -/
def newHead (s : GameState) : Cell :=
  ⟨s.snake.headI.x + s.dx * s.scale, s.snake.headI.y + s.dy * s.scale⟩

/-- The generateFood sampling loop. The source draws
Math.floor(Math.random() * 20) for each coordinate and multiplies by the cell
scale, redrawing while the cell is occupied by the snake. The stream of draws
is the argument rand (consumed from index idx on) and the loop is fuelled, so
a run that never finds a free cell returns none. -/
def generateFood (snake : List Cell) (scale : Int) (rand : Nat → Nat × Nat) :
    Nat → Nat → Option Cell
  | _, 0 => none
  | idx, fuel + 1 =>
    let c : Cell := ⟨((rand idx).1 : Int) * scale, ((rand idx).2 : Int) * scale⟩
    if snake.any (fun seg => decide (seg.x = c.x) && decide (seg.y = c.y)) then
      generateFood snake scale rand (idx + 1) fuel
    else
      some c

/-- Replace the first entry whose userId matches uid, as updateDoc does on the
single document returned by the limit(1) query. -/
def updateFirst (lb : List Entry) (uid : String) (f : Entry → Entry) : List Entry :=
  match lb with
  | [] => []
  | e :: rest => if e.userId == uid then f e :: rest else e :: updateFirst rest uid f

/-- The Firestore side of submitScore: query the first entry with the given
userId; if one exists and finalScore is strictly greater, update it in place
(username, score, timestamp); if none exists, append a new document; otherwise
leave the collection unchanged. -/
def submitScoreDb (lb : List Entry) (uid name : String) (finalScore ts : Nat) :
    List Entry :=
  match lb.find? (fun e => e.userId == uid) with
  | some existing =>
    if finalScore > existing.score then
      updateFirst lb uid
        (fun e => { e with username := name, score := finalScore, timestamp := ts })
    else
      lb
  | none => lb ++ [⟨uid, name, finalScore, ts⟩]

/-- Whether the submitScore call issues a write (updateDoc or addDoc) against
the collection, as opposed to the silent no-op branch. -/
def submitWrites (lb : List Entry) (uid : String) (finalScore : Nat) : Bool :=
  match lb.find? (fun e => e.userId == uid) with
  | some existing => decide (finalScore > existing.score)
  | none => true

/-- submitScore as a state transition: the early return when the db handle,
userId or username is missing is modelled by the empty-string guard; otherwise
the leaderboard is upserted and the write counter records whether a write
happened. -/
def submitScore (finalScore : Nat) (s : GameState) : GameState :=
  if s.userId = "" ∨ s.username = "" then s
  else
    { s with
      leaderboard := submitScoreDb s.leaderboard s.userId s.username finalScore s.now,
      writes := s.writes + (if submitWrites s.leaderboard s.userId finalScore then 1 else 0) }

/-- endGame from the source: clear the started flag, cancel the timer, record
the last score, return to the menu page, clear the in-progress flag, then
submit the current score. -/
def endGame (s : GameState) : GameState :=
  submitScore s.score
    { s with
      gameStarted := false
      timerOn := false
      lastScore := some s.score
      page := Page.menu
      inProgress := false }

/-- update from the source, one tick. The freshly generated food cell (the
result of the Math.random loop, verified separately) is the oracle argument
newFood. On collision the tick ends the game and returns; otherwise the head
is prepended, and either the food is eaten (score up, food respawned, possible
speedup and timer rearm) or the tail is popped. -/
def update (newFood : Cell) (s : GameState) : GameState :=
  let head := newHead s
  if checkCollision s head then
    endGame s
  else
    let s1 : GameState := { s with snake := head :: s.snake }
    if head = s.food then
      let s2 : GameState := { s1 with score := s1.score + 1, food := newFood }
      if s2.score > 0 ∧ s2.score % SPEED_INCREMENT_INTERVAL = 0 then
        { s2 with speed := max 50 (s2.speed - SPEED_DECREMENT_AMOUNT) }
      else
        s2
    else
      { s1 with snake := s1.snake.dropLast }

/-- startGame from the source: snake reset to the single origin cell, heading
rightward, score 0, initial speed, fresh food (oracle argument), started and
in-progress flags set, timer (re)armed. -/
def startGame (newFood : Cell) (s : GameState) : GameState :=
  { s with
    snake := [⟨0, 0⟩]
    dx := 1
    dy := 0
    score := 0
    speed := INITIAL_SPEED
    food := newFood
    gameStarted := true
    inProgress := true
    timerOn := true }

/-- changeDirection from the source: ignored unless a game is running; each
requested direction is installed only when the guard component of the current
direction is zero. -/
def changeDirection (d : Dir) (s : GameState) : GameState :=
  if s.gameStarted then
    match d with
    | Dir.left => if s.dx = 0 then { s with dx := -1, dy := 0 } else s
    | Dir.up => if s.dy = 0 then { s with dx := 0, dy := -1 } else s
    | Dir.right => if s.dx = 0 then { s with dx := 1, dy := 0 } else s
    | Dir.down => if s.dy = 0 then { s with dx := 0, dy := 1 } else s
  else
    s

/-- A run: n ticks of update after a starting state, with the food respawn
oracle supplied per tick. -/
def run (foods : Nat → Cell) (s0 : GameState) : Nat → GameState
  | 0 => s0
  | n + 1 => update (foods n) (run foods s0 n)

/-- A concrete in-game state used to instantiate theorems: one-cell snake at
the origin heading right on a 400 by 400 canvas with cell scale 20, food one
cell to the right. -/
def demoState : GameState :=
  { snake := [⟨0, 0⟩]
    food := ⟨20, 0⟩
    dx := 1
    dy := 0
    score := 0
    speed := 150
    gameStarted := true
    timerOn := true
    canvasWidth := 400
    canvasHeight := 400
    scale := 20
    page := Page.game
    lastScore := none
    inProgress := true
    userId := "u1"
    username := "alice"
    now := 0
    leaderboard := []
    writes := 0 }

/-- A concrete state whose next head hits the right wall. -/
def demoCollide : GameState :=
  { demoState with snake := [⟨380, 0⟩] }

/-- A concrete state one food short of the score-55 speedup while the interval
already sits at the 50ms floor. -/
def speedFloorState : GameState :=
  { demoState with score := 54, speed := 50 }

/-- A concrete state with no game running. -/
def demoMenu : GameState :=
  { demoState with gameStarted := false }

lemma any_eq_mem (l : List Cell) (head : Cell) :
    (l.any (fun seg => decide (seg.x = head.x) && decide (seg.y = head.y)) = true) ↔
      head ∈ l := by
  rw [List.any_eq_true]
  constructor
  · rintro ⟨seg, hmem, hp⟩
    simp only [Bool.and_eq_true, decide_eq_true_eq] at hp
    have hseg : seg = head := by
      cases seg
      cases head
      simp only [Cell.mk.injEq]
      simpa using hp
    exact hseg ▸ hmem
  · intro hmem
    exact ⟨head, hmem, by simp⟩

lemma mem_drop_one_iff (l : List Cell) (a : Cell) :
    a ∈ l.drop 1 ↔ ∃ i, ∃ h : i < l.length, 1 ≤ i ∧ l.get ⟨i, h⟩ = a := by
  cases l with
  | nil => simp
  | cons b t =>
    simp only [List.drop_succ_cons, List.drop_zero]
    constructor
    · intro hmem
      rcases List.mem_iff_get.mp hmem with ⟨⟨j, hj⟩, hget⟩
      exact ⟨j + 1, Nat.succ_lt_succ hj, Nat.succ_le_succ (Nat.zero_le j), hget⟩
    · rintro ⟨i, h, h1, hget⟩
      match i, h, h1, hget with
      | j + 1, h, _, hget =>
        have : t.get ⟨j, Nat.lt_of_succ_lt_succ h⟩ ∈ t := List.get_mem t _ _
        exact hget ▸ this

/-- C2: checkCollision returns true exactly when the head is out of the board
bounds or equals a body cell at some index at least 1 (the old head at index 0
is never compared); as a Lean function it is pure, with no side effects. -/
theorem checkCollision_iff (s : GameState) (head : Cell) :
    checkCollision s head = true ↔
      head.x < 0 ∨ head.x ≥ s.canvasWidth ∨ head.y < 0 ∨ head.y ≥ s.canvasHeight ∨
      ∃ i, ∃ h : i < s.snake.length, 1 ≤ i ∧ s.snake.get ⟨i, h⟩ = head := by
  unfold checkCollision
  by_cases hw : head.x < 0 ∨ head.x ≥ s.canvasWidth ∨ head.y < 0 ∨ head.y ≥ s.canvasHeight
  · rw [if_pos hw]
    simp only [true_iff]
    tauto
  · rw [if_neg hw, any_eq_mem, mem_drop_one_iff]
    constructor
    · intro h
      exact Or.inr (Or.inr (Or.inr (Or.inr h)))
    · rintro (h | h | h | h | h)
      · exact absurd (Or.inl h) hw
      · exact absurd (Or.inr (Or.inl h)) hw
      · exact absurd (Or.inr (Or.inr (Or.inl h))) hw
      · exact absurd (Or.inr (Or.inr (Or.inr h))) hw
      · exact h

/-- C10: with no game in progress, changeDirection leaves the whole state, in
particular the direction components, unchanged. -/
theorem changeDirection_idle (s : GameState) (d : Dir)
    (hg : s.gameStarted = false) :
    changeDirection d s = s := by
  simp [changeDirection, hg]

/-- Witness for C10 at a concrete idle state. -/
theorem changeDirection_idle_witness : changeDirection Dir.left demoMenu = demoMenu :=
  changeDirection_idle demoMenu Dir.left (by decide)

/-- C1: on a non-colliding tick, eating the food grows the snake by exactly
one cell and the score by exactly one; otherwise both length and score are
unchanged. -/
theorem update_length_score (nf : Cell) (s : GameState)
    (hcol : checkCollision s (newHead s) = false) :
    (newHead s = s.food →
      (update nf s).snake.length = s.snake.length + 1 ∧
      (update nf s).score = s.score + 1) ∧
    (newHead s ≠ s.food →
      (update nf s).snake.length = s.snake.length ∧
      (update nf s).score = s.score) := by
  constructor
  · intro he
    simp only [update, hcol, Bool.false_eq_true, if_false, if_pos he]
    split
    · simp
    · simp
  · intro hne
    simp only [update, hcol, Bool.false_eq_true, if_false, if_neg hne]
    simp

/-- Witness for C1: the demo state eats the food cell one step to the right. -/
theorem update_length_score_witness :
    (update ⟨40, 0⟩ demoState).snake.length = demoState.snake.length + 1 ∧
    (update ⟨40, 0⟩ demoState).score = demoState.score + 1 :=
  (update_length_score ⟨40, 0⟩ demoState (by decide)).1 (by decide)

/-- C8: a colliding tick only runs endGame: the run transitions to idle (the
started flag and timer are cleared) and the snake body, score, food and speed
are all left untouched; the colliding head is never prepended. -/
theorem update_collision_idle (nf : Cell) (s : GameState)
    (hcol : checkCollision s (newHead s) = true) :
    update nf s = endGame s ∧
    (update nf s).snake = s.snake ∧
    (update nf s).score = s.score ∧
    (update nf s).food = s.food ∧
    (update nf s).speed = s.speed ∧
    (update nf s).gameStarted = false ∧
    (update nf s).timerOn = false := by
  have h1 : update nf s = endGame s := by
    simp [update, hcol]
  refine ⟨h1, ?_⟩
  rw [h1]
  unfold endGame submitScore
  split
  · simp
  · simp

/-- Witness for C8 at a concrete state whose next head hits the right wall. -/
theorem update_collision_idle_witness :
    (update ⟨40, 0⟩ demoCollide).snake = demoCollide.snake ∧
    (update ⟨40, 0⟩ demoCollide).gameStarted = false :=
  ⟨(update_collision_idle ⟨40, 0⟩ demoCollide (by decide)).2.1,
    (update_collision_idle ⟨40, 0⟩ demoCollide (by decide)).2.2.2.2.2.1⟩

lemma update_score_cases (nf : Cell) (s : GameState) :
    (update nf s).score = s.score ∨ (update nf s).score = s.score + 1 := by
  by_cases hcol : checkCollision s (newHead s) = true
  · left
    simp only [update, hcol, if_true]
    unfold endGame submitScore
    split
    · simp
    · simp
  · have hcol2 : checkCollision s (newHead s) = false := by
      simpa using hcol
    by_cases he : newHead s = s.food
    · right
      simp only [update, hcol2, Bool.false_eq_true, if_false, if_pos he]
      split
      · simp
      · simp
    · left
      simp only [update, hcol2, Bool.false_eq_true, if_false, if_neg he]

/-- C9: within a run, the score starts at 0 at startGame, each tick either
leaves it unchanged or increments it by exactly one, and it is monotonically
non-decreasing across ticks; as a natural number it is non-negative by
construction, mirroring the source which initializes it to 0 and only ever
adds 1. -/
theorem score_monotone_run (s : GameState) (nf : Cell) (foods : Nat → Cell)
    (n : Nat) :
    (startGame nf s).score = 0 ∧
    ((run foods (startGame nf s) (n + 1)).score =
        (run foods (startGame nf s) n).score ∨
      (run foods (startGame nf s) (n + 1)).score =
        (run foods (startGame nf s) n).score + 1) ∧
    (run foods (startGame nf s) n).score ≤
      (run foods (startGame nf s) (n + 1)).score := by
  refine ⟨rfl, update_score_cases (foods n) (run foods (startGame nf s) n), ?_⟩
  rcases update_score_cases (foods n) (run foods (startGame nf s) n) with h | h
  · exact le_of_eq h.symm
  · rw [show run foods (startGame nf s) (n + 1) =
        update (foods n) (run foods (startGame nf s) n) from rfl, h]
    exact Nat.le_succ _

/-- C3: with a game running, a requested direction is installed exactly when
the component of the current direction along the requested axis is zero, and
is ignored otherwise; consequently, for a current heading given by any of the
four unit directions, requesting its opposite or requesting it again both
leave the direction unchanged. -/
theorem changeDirection_orthogonal (s : GameState) (d : Dir)
    (hg : s.gameStarted = true) :
    (((changeDirection d s).dx, (changeDirection d s).dy) =
      if axisComp d s = 0 then dirVec d else (s.dx, s.dy)) ∧
    (∀ c : Dir, (s.dx, s.dy) = dirVec c →
      (changeDirection (opposite c) s).dx = s.dx ∧
      (changeDirection (opposite c) s).dy = s.dy ∧
      (changeDirection c s).dx = s.dx ∧
      (changeDirection c s).dy = s.dy) := by
  constructor
  · cases d <;> simp only [changeDirection, axisComp, dirVec, hg, if_true] <;>
      split <;> simp_all
  · intro c hc
    cases c <;> simp only [dirVec, Prod.mk.injEq] at hc <;>
      obtain ⟨h1, h2⟩ := hc <;>
      simp [changeDirection, opposite, hg, h1, h2]

/-- Witness for C3: in the demo state (heading right), requesting up is
orthogonal and is installed. -/
theorem changeDirection_orthogonal_witness :
    ((changeDirection Dir.up demoState).dx, (changeDirection Dir.up demoState).dy) =
      if axisComp Dir.up demoState = 0 then dirVec Dir.up
      else (demoState.dx, demoState.dy) :=
  (changeDirection_orthogonal demoState Dir.up (by decide)).1

/-- C5 counterexample: from a state whose interval already sits at 50ms and
whose score crosses the positive multiple 55 of 5 on an eating tick, the tick
interval does not strictly decrease: it stays at 50ms. -/
theorem speed_not_strict_at_floor :
    (update ⟨40, 40⟩ speedFloorState).score = 55 ∧
    55 % 5 = 0 ∧
    speedFloorState.speed = 50 ∧
    (update ⟨40, 40⟩ speedFloorState).speed = 50 ∧
    ¬ (update ⟨40, 40⟩ speedFloorState).speed < speedFloorState.speed := by
  decide

/-- C5 as amended: the interval starts each run at INITIAL_SPEED = 150ms;
on a tick where the score becomes a positive multiple of 5, the interval
becomes max(50, previous minus 10), hence it never drops below 50ms, and it
strictly decreases whenever the previous interval exceeds 50ms. -/
theorem speed_update_rule (nf : Cell) (s : GameState)
    (hcol : checkCollision s (newHead s) = false)
    (heat : newHead s = s.food)
    (hmul : (s.score + 1) % SPEED_INCREMENT_INTERVAL = 0) :
    (update nf s).speed = max 50 (s.speed - SPEED_DECREMENT_AMOUNT) ∧
    50 ≤ (update nf s).speed ∧
    (50 < s.speed → (update nf s).speed < s.speed) ∧
    (startGame nf s).speed = INITIAL_SPEED ∧
    INITIAL_SPEED = 150 := by
  have hs : (update nf s).speed = max 50 (s.speed - SPEED_DECREMENT_AMOUNT) := by
    simp only [update, hcol, Bool.false_eq_true, if_false, if_pos heat]
    rw [if_pos]
    constructor
    · exact Nat.succ_pos _
    · exact hmul
  refine ⟨hs, ?_, ?_, rfl, rfl⟩
  · rw [hs]
    exact le_max_left _ _
  · intro h
    rw [hs]
    have hlt : s.speed - SPEED_DECREMENT_AMOUNT < s.speed := by
      unfold SPEED_DECREMENT_AMOUNT
      omega
    exact max_lt h hlt

/-- Witness for C5 as amended, at the concrete state crossing score 55. -/
theorem speed_update_rule_witness :
    (update ⟨40, 40⟩ speedFloorState).speed =
      max 50 (speedFloorState.speed - SPEED_DECREMENT_AMOUNT) :=
  (speed_update_rule ⟨40, 40⟩ speedFloorState (by decide) (by decide) (by decide)).1

/-- C4: whenever the sampling loop returns a cell, that cell is a lattice
point (an integer pair of multiples of the cell scale with factors below the
grid size), lies within the board bounds, and coincides with no snake cell.
The draws are required to be in range, as Math.floor(Math.random() * 20) is. -/
theorem generateFood_spec (snake : List Cell) (scale : Int)
    (rand : Nat → Nat × Nat) (idx fuel : Nat) (c : Cell)
    (hrand : ∀ n, (rand n).1 < GAME_GRID_SIZE ∧ (rand n).2 < GAME_GRID_SIZE)
    (hsc : 0 < scale)
    (hres : generateFood snake scale rand idx fuel = some c) :
    (∃ i j : Nat, i < GAME_GRID_SIZE ∧ j < GAME_GRID_SIZE ∧
      c.x = (i : Int) * scale ∧ c.y = (j : Int) * scale) ∧
    0 ≤ c.x ∧ c.x < (GAME_GRID_SIZE : Int) * scale ∧
    0 ≤ c.y ∧ c.y < (GAME_GRID_SIZE : Int) * scale ∧
    ∀ seg ∈ snake, ¬ (seg.x = c.x ∧ seg.y = c.y) := by
  induction fuel generalizing idx with
  | zero => simp [generateFood] at hres
  | succ f ih =>
    rw [generateFood] at hres
    split at hres
    · exact ih (idx + 1) hres
    · rename_i hocc
      rw [Option.some_inj] at hres
      subst hres
      obtain ⟨h1, h2⟩ := hrand idx
      have h1i : ((rand idx).1 : Int) < (GAME_GRID_SIZE : Int) := by exact_mod_cast h1
      have h2i : ((rand idx).2 : Int) < (GAME_GRID_SIZE : Int) := by exact_mod_cast h2
      refine ⟨⟨(rand idx).1, (rand idx).2, h1, h2, rfl, rfl⟩, ?_, ?_, ?_, ?_, ?_⟩
      · exact mul_nonneg (Int.natCast_nonneg _) (le_of_lt hsc)
      · exact mul_lt_mul_of_pos_right h1i hsc
      · exact mul_nonneg (Int.natCast_nonneg _) (le_of_lt hsc)
      · exact mul_lt_mul_of_pos_right h2i hsc
      · intro seg hseg hcon
        apply hocc
        rw [List.any_eq_true]
        exact ⟨seg, hseg, by simp [hcon.1, hcon.2]⟩

/-- Witness for C4: on a one-cell snake at the origin with scale 20, the
constant draw (1, 1) immediately yields the free in-bounds cell (20, 20). -/
theorem generateFood_spec_witness :
    0 ≤ (Cell.mk 20 20).x ∧ (Cell.mk 20 20).x < (GAME_GRID_SIZE : Int) * 20 := by
  have h := generateFood_spec [⟨0, 0⟩] 20 (fun _ => (1, 1)) 0 1 ⟨20, 20⟩
    (fun _ => ⟨(by decide : (1 : Nat) < 20), (by decide : (1 : Nat) < 20)⟩)
    (by decide) (by decide)
  exact ⟨h.2.1, h.2.2.1⟩

lemma find_updateFirst (lb : List Entry) (uid : String) (f : Entry → Entry)
    (hf : ∀ x, (f x).userId = x.userId) :
    (updateFirst lb uid f).find? (fun x => x.userId == uid) =
      (lb.find? (fun x => x.userId == uid)).map f := by
  induction lb with
  | nil => rfl
  | cons a t ih =>
    by_cases h : a.userId = uid
    · rw [updateFirst, if_pos (by simp [h])]
      rw [List.find?_cons_of_pos _ (by simp [hf, h]),
        List.find?_cons_of_pos _ (by simp [h])]
      rfl
    · rw [updateFirst, if_neg (by simp [h])]
      rw [List.find?_cons_of_neg _ (by simp [h]),
        List.find?_cons_of_neg _ (by simp [h])]
      exact ih

/-- C6: the leaderboard upsert. With no entry for the identity, exactly one
new entry with the submitted score is appended; with an existing entry and a
strictly greater submitted score, that entry (and only it) is rewritten to the
submitted score; otherwise the collection is returned unchanged. -/
theorem submitScoreDb_upsert (lb : List Entry) (uid name : String) (sc ts : Nat) :
    (lb.find? (fun x => x.userId == uid) = none →
      submitScoreDb lb uid name sc ts = lb ++ [⟨uid, name, sc, ts⟩]) ∧
    (∀ e, lb.find? (fun x => x.userId == uid) = some e →
      (sc > e.score →
        submitScoreDb lb uid name sc ts =
          updateFirst lb uid
            (fun x => { x with username := name, score := sc, timestamp := ts }) ∧
        (submitScoreDb lb uid name sc ts).find? (fun x => x.userId == uid) =
          some ⟨e.userId, name, sc, ts⟩) ∧
      (¬ sc > e.score → submitScoreDb lb uid name sc ts = lb)) := by
  refine ⟨fun hnone => ?_, fun e hsome => ⟨fun hgt => ⟨?_, ?_⟩, fun hle => ?_⟩⟩
  · unfold submitScoreDb
    rw [hnone]
  · simp only [submitScoreDb, hsome]
    rw [if_pos hgt]
  · simp only [submitScoreDb, hsome]
    rw [if_pos hgt,
      find_updateFirst lb uid
        (fun x => { x with username := name, score := sc, timestamp := ts })
        (fun x => rfl),
      hsome]
    rfl
  · simp only [submitScoreDb, hsome]
    rw [if_neg hle]

/-- Witness for C6, creation branch: an identity with no prior entry gets
exactly one appended entry carrying the submitted score. -/
theorem submitScoreDb_upsert_witness :
    submitScoreDb [⟨"u2", "bob", 7, 0⟩] "u1" "alice" 5 3 =
      [⟨"u2", "bob", 7, 0⟩] ++ [⟨"u1", "alice", 5, 3⟩] :=
  (submitScoreDb_upsert [⟨"u2", "bob", 7, 0⟩] "u1" "alice" 5 3).1 (by decide)

lemma submit_find_ge (lb : List Entry) (uid name : String) (sc ts : Nat) :
    ∃ e, (submitScoreDb lb uid name sc ts).find? (fun x => x.userId == uid) = some e ∧
      sc ≤ e.score := by
  cases hfind : lb.find? (fun x => x.userId == uid) with
  | none =>
    refine ⟨⟨uid, name, sc, ts⟩, ?_, le_refl _⟩
    simp only [submitScoreDb, hfind]
    rw [List.find?_append, hfind]
    simp [List.find?]
  | some e =>
    by_cases hgt : sc > e.score
    · refine ⟨⟨e.userId, name, sc, ts⟩, ?_, le_refl _⟩
      simp only [submitScoreDb, hfind]
      rw [if_pos hgt,
        find_updateFirst lb uid
          (fun x => { x with username := name, score := sc, timestamp := ts })
          (fun x => rfl),
        hfind]
      rfl
    · refine ⟨e, ?_, Nat.le_of_not_lt hgt⟩
      simp only [submitScoreDb, hfind]
      rw [if_neg hgt]
      exact hfind

lemma submit_twice (lb : List Entry) (uid name name2 : String) (sc ts ts2 : Nat) :
    submitScoreDb (submitScoreDb lb uid name sc ts) uid name2 sc ts2 =
      submitScoreDb lb uid name sc ts ∧
    submitWrites (submitScoreDb lb uid name sc ts) uid sc = false := by
  obtain ⟨e, hfind, hge⟩ := submit_find_ge lb uid name sc ts
  constructor
  · conv_lhs => rw [submitScoreDb.eq_def]
    rw [hfind]
    simp only
    rw [if_neg (Nat.not_lt.mpr hge)]
  · rw [submitWrites.eq_def, hfind]
    simp only [decide_eq_false_iff_not]
    exact Nat.not_lt.mpr hge

/-- C7: calling endGame twice in succession is harmless: the model is a total
function (nothing throws), and the second call performs no leaderboard write
at all (the write counter is unchanged and the leaderboard is identical),
because the resubmitted score is never strictly greater than the score the
first call left stored. -/
lemma endGame_eq (s : GameState) (hu : s.userId ≠ "") (hn : s.username ≠ "") :
    endGame s =
      { s with
        gameStarted := false
        timerOn := false
        lastScore := some s.score
        page := Page.menu
        inProgress := false
        leaderboard := submitScoreDb s.leaderboard s.userId s.username s.score s.now
        writes := s.writes +
          (if submitWrites s.leaderboard s.userId s.score then 1 else 0) } := by
  unfold endGame submitScore
  rw [if_neg (by simp [hu, hn])]

theorem endGame_idempotent (s : GameState) :
    (endGame (endGame s)).leaderboard = (endGame s).leaderboard ∧
    (endGame (endGame s)).writes = (endGame s).writes ∧
    (endGame (endGame s)).gameStarted = false ∧
    (endGame (endGame s)).lastScore = (endGame s).lastScore := by
  by_cases hu : s.userId = ""
  · simp [endGame, submitScore, hu]
  · by_cases hn : s.username = ""
    · simp [endGame, submitScore, hn]
    · rw [endGame_eq s hu hn, endGame_eq _ (by simpa using hu) (by simpa using hn)]
      refine ⟨?_, ?_, rfl, rfl⟩
      · show submitScoreDb
            (submitScoreDb s.leaderboard s.userId s.username s.score s.now)
            s.userId s.username s.score s.now =
          submitScoreDb s.leaderboard s.userId s.username s.score s.now
        exact (submit_twice s.leaderboard s.userId s.username s.username
          s.score s.now s.now).1
      · show (s.writes + (if submitWrites s.leaderboard s.userId s.score then 1 else 0)) +
            (if submitWrites
              (submitScoreDb s.leaderboard s.userId s.username s.score s.now)
              s.userId s.score then 1 else 0) =
          s.writes + (if submitWrites s.leaderboard s.userId s.score then 1 else 0)
        rw [(submit_twice s.leaderboard s.userId s.username s.username
          s.score s.now s.now).2]
        simp

end SnakeGame
